import Mathlib

/-!
Shallow embedding of the SunGoldMiner Modbus poller (`src/main.rs`).

The program opens a Modbus-TCP transport to a power analyzer, reads 13
register pairs (4 aggregate totals + 3 phases x 3 sub-measurements),
decodes each pair into a 32-bit value, and assembles a `MinerData`
snapshot or reports the first failure.

The device and transport are modelled as a `Device` record of pure
functions: `regs` gives each 16-bit holding register's content, `readOk`
says whether the `read_holding_registers` operation at a given address
succeeds, `openOk`/`closeOk` model transport open/close outcomes.
`poll_solar_data` mirrors the Rust control flow and additionally returns
the list of transport events (open, each issued read with its address,
close) so that claims about which reads are issued can be stated.
The iteration orders of the two register tables (a `phf` map and a
`HashMap` in the source, whose iteration orders are not guaranteed) are
explicit list parameters; the canonical lists `BASE_DATA_REGISTER` and
`phase_data_registers` are the tables as written in the source.
-/

namespace SunGoldMiner

/-- Mirror of the Rust `PhasePower` struct (field order as in source). -/
structure PhasePower where
  power : Nat
  reactive_power : Nat
  apparent_power : Nat
deriving DecidableEq, Repr

/-- Mirror of the Rust `MinerData` struct. -/
structure MinerData where
  imported_power_total : Nat
  imported_reactive_power_total : Nat
  exported_power_total : Nat
  exported_reactive_power_total : Nat
  phase1 : PhasePower
  phase2 : PhasePower
  phase3 : PhasePower
deriving DecidableEq, Repr

/-- Mirror of the Rust `MinerError` enum. -/
inductive MinerError
  | BadDataRead (register : Nat) (message : String)
  | ModbusTransportIssue (message : String)
deriving DecidableEq, Repr

/-- Mirror of the Rust `PhaseFields` enum. -/
inductive PhaseFields
  | Power
  | ApparentPower
  | ReactivePower
deriving DecidableEq, Repr

/-- The `BASE_DATA_REGISTER` phf map from the source, as the ordered list
of its entries. -/
def BASE_DATA_REGISTER : List (String × Nat) :=
  [("imported_power_total", 0x34),
   ("imported_reactive_power_total", 0x36),
   ("exported_power_total", 0x4e),
   ("exported_reactive_power_total", 0x50)]

/-- The `phase_data_registers` HashMap from the source, as the ordered
list of its entries. -/
def phase_data_registers : List (PhaseFields × Nat) :=
  [(PhaseFields.Power, 0x12),
   (PhaseFields.ApparentPower, 0x18),
   (PhaseFields.ReactivePower, 0x1e)]

/-- The 13 register addresses the poll is documented to read:
4 aggregates, then for each phase i the three sub-measurements. -/
def DOC_ADDRS : List Nat :=
  [0x34, 0x36, 0x4e, 0x50,
   0x12, 0x18, 0x1e,
   0x14, 0x1a, 0x20,
   0x16, 0x1c, 0x22]

/-- Model of the device plus transport-level outcomes for one poll. -/
structure Device where
  openOk : Bool
  openMsg : String
  regs : Nat → Nat
  readOk : Nat → Bool
  readMsg : Nat → String
  closeOk : Bool
  closeMsg : String

/-- `client.read_holding_registers(register, 2)`: the two consecutive
16-bit registers starting at `register`, or the transport error. -/
def read_holding_registers (d : Device) (register : Nat) :
    Except String (List Nat) :=
  if d.readOk register then
    Except.ok [d.regs register % 65536, d.regs (register + 1) % 65536]
  else
    Except.error (d.readMsg register)

/-- Mirror of the Rust `read_modbus_int32`: read two registers, reverse
the array, combine `(array[0] << 16) | array[1]`. -/
def read_modbus_int32 (d : Device) (register : Nat) : Except String Nat :=
  match read_holding_registers d register with
  | Except.error e => Except.error e
  | Except.ok array =>
      let array := array.reverse
      Except.ok ((array.getD 0 0) <<< 16 ||| array.getD 1 0)

/-- The value `read_modbus_int32` decodes at address `a` when the read
succeeds: the word at `a+1` becomes the high half, the word at `a` the
low half (because of the `array.reverse()` in the source). -/
def decodeVal (d : Device) (a : Nat) : Nat :=
  (d.regs (a + 1) % 65536) <<< 16 ||| (d.regs a % 65536)

/-- Transport events observed during one poll. -/
inductive Event
  | opened
  | readAt (addr : Nat)
  | closed
deriving DecidableEq, Repr

/-- The aggregate-register loop (source lines 92-97): for each
`(field_name, register)` in iteration order, `read_modbus_int32` at
`register`; on failure return `BadDataRead` with that register; on
success insert the value into the polled-data map (modelled as an
association list with the most recent insert in front). -/
def baseLoop (d : Device) :
    List (String × Nat) → List (String × Nat) →
    Option MinerError × List (String × Nat) × List Event
  | [], m => (none, m, [])
  | (field_name, register) :: rest, m =>
    match read_modbus_int32 d register with
    | Except.error e =>
        (some (MinerError.BadDataRead register e), m, [Event.readAt register])
    | Except.ok value =>
        let r := baseLoop d rest ((field_name, value) :: m)
        (r.1, r.2.1, Event.readAt register :: r.2.2)

/-- The `match *field_name` assignment in the phase loop. -/
def setField (f : PhaseFields) (v : Nat) (p : PhasePower) : PhasePower :=
  match f with
  | PhaseFields.Power => { p with power := v }
  | PhaseFields.ApparentPower => { p with apparent_power := v }
  | PhaseFields.ReactivePower => { p with reactive_power := v }

/-- Projection of a `PhasePower` field by its tag. -/
def getField (f : PhaseFields) (p : PhasePower) : Nat :=
  match f with
  | PhaseFields.Power => p.power
  | PhaseFields.ApparentPower => p.apparent_power
  | PhaseFields.ReactivePower => p.reactive_power

/-- The inner phase loop (source lines 115-123) for phase index `i`: for
each `(field_name, register)` in iteration order, read at
`register + i * 2`; on failure return `BadDataRead` carrying the BASE
`register` (exactly as the source does on line 117); on success store
the value in the field selected by the tag. -/
def phaseInner (d : Device) (i : Nat) :
    List (PhaseFields × Nat) → PhasePower →
    Option MinerError × PhasePower × List Event
  | [], acc => (none, acc, [])
  | (field_name, register) :: rest, acc =>
    match read_modbus_int32 d (register + i * 2) with
    | Except.error e =>
        (some (MinerError.BadDataRead register e), acc,
         [Event.readAt (register + i * 2)])
    | Except.ok value =>
        let r := phaseInner d i rest (setField field_name value acc)
        (r.1, r.2.1, Event.readAt (register + i * 2) :: r.2.2)

/-- The outer phase loop (source lines 111-130): for each phase index in
order, run the inner loop starting from zero-initialised locals and
append the resulting `PhasePower` to the phase-data vector. -/
def phaseOuter (d : Device) (order : List (PhaseFields × Nat)) :
    List Nat → List PhasePower →
    Option MinerError × List PhasePower × List Event
  | [], acc => (none, acc, [])
  | i :: rest, acc =>
    let r := phaseInner d i order ⟨0, 0, 0⟩
    match r.1 with
    | some e => (some e, acc, r.2.2)
    | none =>
        let r2 := phaseOuter d order rest (acc ++ [r.2.1])
        (r2.1, r2.2.1, r.2.2 ++ r2.2.2)

/-- Outcome of one poll: a snapshot, a `MinerError`, or a Rust panic
(the `unwrap`s / vector indexing in the snapshot assembly). -/
inductive PollResult
  | ok (data : MinerData)
  | err (e : MinerError)
  | panicked
deriving DecidableEq, Repr

/-- The snapshot assembly (source lines 137-145): look up the four
aggregate keys and index the three phases; any missing entry is the
`unwrap`/index panic. -/
def assemble (m : List (String × Nat)) (phases : List PhasePower) :
    PollResult :=
  match m.lookup "imported_power_total",
        m.lookup "imported_reactive_power_total",
        m.lookup "exported_power_total",
        m.lookup "exported_reactive_power_total",
        phases[0]?, phases[1]?, phases[2]? with
  | some a, some b, some c, some e, some p1, some p2, some p3 =>
      PollResult.ok ⟨a, b, c, e, p1, p2, p3⟩
  | _, _, _, _, _, _, _ => PollResult.panicked

/-- Mirror of the Rust `poll_solar_data`, parameterised by the iteration
orders of the two register tables, returning the outcome together with
the list of transport events in order. -/
def poll_solar_data (d : Device) (baseOrder : List (String × Nat))
    (phaseOrder : List (PhaseFields × Nat)) : PollResult × List Event :=
  if d.openOk = false then
    (PollResult.err (MinerError.ModbusTransportIssue d.openMsg), [])
  else
    let rb := baseLoop d baseOrder []
    match rb.1 with
    | some e => (PollResult.err e, Event.opened :: rb.2.2)
    | none =>
        let rp := phaseOuter d phaseOrder [0, 1, 2] []
        match rp.1 with
        | some e => (PollResult.err e, Event.opened :: (rb.2.2 ++ rp.2.2))
        | none =>
            if d.closeOk = false then
              (PollResult.err (MinerError.ModbusTransportIssue d.closeMsg),
               Event.opened :: (rb.2.2 ++ rp.2.2 ++ [Event.closed]))
            else
              (assemble rb.2.1 rp.2.1,
               Event.opened :: (rb.2.2 ++ rp.2.2 ++ [Event.closed]))

/-- Addresses of the read events in a trace. -/
def readAddrs (evs : List Event) : List Nat :=
  evs.filterMap fun e =>
    match e with
    | Event.readAt a => some a
    | _ => none

/-- A device on which every operation succeeds; registers hold `f`. -/
def okDevice (f : Nat → Nat) : Device :=
  { openOk := true, openMsg := "", regs := f,
    readOk := fun _ => true, readMsg := fun _ => "", closeOk := true,
    closeMsg := "" }

/-- The snapshot a fully successful poll assembles, as a function of the
device's registers alone. -/
def snap (d : Device) : MinerData :=
  { imported_power_total := decodeVal d 0x34,
    imported_reactive_power_total := decodeVal d 0x36,
    exported_power_total := decodeVal d 0x4e,
    exported_reactive_power_total := decodeVal d 0x50,
    phase1 := { power := decodeVal d 0x12, reactive_power := decodeVal d 0x1e,
                apparent_power := decodeVal d 0x18 },
    phase2 := { power := decodeVal d 0x14, reactive_power := decodeVal d 0x20,
                apparent_power := decodeVal d 0x1a },
    phase3 := { power := decodeVal d 0x16, reactive_power := decodeVal d 0x22,
                apparent_power := decodeVal d 0x1c } }

/-! ### Basic facts about the decoder -/

theorem read_modbus_int32_ok (d : Device) (a : Nat) (h : d.readOk a = true) :
    read_modbus_int32 d a = Except.ok (decodeVal d a) := by
  simp [read_modbus_int32, read_holding_registers, h, decodeVal]

theorem read_modbus_int32_fail (d : Device) (a : Nat)
    (h : d.readOk a = false) :
    read_modbus_int32 d a = Except.error (d.readMsg a) := by
  simp [read_modbus_int32, read_holding_registers, h]

theorem shiftLeft_or_eq (hi lo : Nat) (hlo : lo < 65536) :
    hi <<< 16 ||| lo = hi * 65536 + lo := by
  have h16 : lo < 2 ^ 16 := lt_of_lt_of_le hlo (by norm_num)
  calc hi <<< 16 ||| lo = 2 ^ 16 * hi ||| lo := by
        rw [Nat.shiftLeft_eq, Nat.mul_comm]
    _ = 2 ^ 16 * hi + lo := (Nat.mul_add_lt_is_or h16 hi).symm
    _ = hi * 65536 + lo := by ring_nf

theorem decodeVal_eq (d : Device) (a : Nat) :
    decodeVal d a = (d.regs (a + 1) % 65536) * 65536 + d.regs a % 65536 :=
  shiftLeft_or_eq _ _ (Nat.mod_lt _ (by norm_num))

/-! ### The aggregate-register loop -/

theorem baseLoop_none_iff (d : Device) (L : List (String × Nat))
    (m : List (String × Nat)) :
    (baseLoop d L m).1 = none ↔ ∀ q ∈ L, d.readOk q.2 = true := by
  induction L generalizing m with
  | nil => simp [baseLoop]
  | cons q rest ih =>
    obtain ⟨n0, r0⟩ := q
    cases h : d.readOk r0 with
    | false =>
        simp only [baseLoop, read_modbus_int32_fail d r0 h]
        constructor
        · intro hc; simp at hc
        · intro hall
          have := hall (n0, r0) (List.mem_cons_self _ _)
          simp [h] at this
    | true =>
        simp only [baseLoop, read_modbus_int32_ok d r0 h]
        rw [ih]
        constructor
        · intro hall q hq
          rcases List.mem_cons.mp hq with rfl | hq2
          · exact h
          · exact hall q hq2
        · intro hall q hq
          exact hall q (List.mem_cons_of_mem _ hq)

theorem baseLoop_events_of_none (d : Device) (L : List (String × Nat))
    (m : List (String × Nat)) (hs : (baseLoop d L m).1 = none) :
    (baseLoop d L m).2.2 = L.map fun q => Event.readAt q.2 := by
  induction L generalizing m with
  | nil => simp [baseLoop]
  | cons q rest ih =>
    obtain ⟨n0, r0⟩ := q
    cases h : d.readOk r0 with
    | false => simp [baseLoop, read_modbus_int32_fail d r0 h] at hs
    | true =>
        simp only [baseLoop, read_modbus_int32_ok d r0 h] at hs ⊢
        simpa using ih ((n0, decodeVal d r0) :: m) hs

theorem baseLoop_lookup_preserve (d : Device) (L : List (String × Nat))
    (m : List (String × Nat)) (n : String) (h : ∀ q ∈ L, q.1 ≠ n) :
    (baseLoop d L m).2.1.lookup n = m.lookup n := by
  induction L generalizing m with
  | nil => simp [baseLoop]
  | cons q rest ih =>
    obtain ⟨n0, r0⟩ := q
    cases hr : d.readOk r0 with
    | false => simp [baseLoop, read_modbus_int32_fail d r0 hr]
    | true =>
        simp only [baseLoop, read_modbus_int32_ok d r0 hr]
        have hne : n0 ≠ n := h (n0, r0) (List.mem_cons_self _ _)
        have := ih ((n0, decodeVal d r0) :: m)
          (fun q hq => h q (List.mem_cons_of_mem _ hq))
        rw [this]
        simp [List.lookup, show (n == n0) = false from
          beq_eq_false_iff_ne.mpr (Ne.symm hne)]

theorem baseLoop_lookup_mem (d : Device) (L : List (String × Nat))
    (m : List (String × Nat)) (n : String) (r : Nat)
    (hnd : (L.map Prod.fst).Nodup) (hs : (baseLoop d L m).1 = none)
    (hmem : (n, r) ∈ L) :
    (baseLoop d L m).2.1.lookup n = some (decodeVal d r) := by
  induction L generalizing m with
  | nil => simp at hmem
  | cons q rest ih =>
    obtain ⟨n0, r0⟩ := q
    cases hr : d.readOk r0 with
    | false => simp [baseLoop, read_modbus_int32_fail d r0 hr] at hs
    | true =>
        simp only [baseLoop, read_modbus_int32_ok d r0 hr] at hs ⊢
        have hnd2 : n0 ∉ rest.map Prod.fst ∧ (rest.map Prod.fst).Nodup := by
          rw [List.map_cons, List.nodup_cons] at hnd
          exact hnd
        rcases List.mem_cons.mp hmem with heq | hmemrest
        · injection heq with h1 h2
          subst h1; subst h2
          have hnot : ∀ q ∈ rest, q.1 ≠ n := by
            intro q hq hqn
            exact hnd2.1 (hqn ▸ List.mem_map_of_mem Prod.fst hq)
          rw [baseLoop_lookup_preserve d rest _ n hnot]
          simp [List.lookup]
        · exact ih _ hnd2.2 hs hmemrest

/-! ### The phase loops -/

theorem getField_setField_same (f : PhaseFields) (v : Nat) (p : PhasePower) :
    getField f (setField f v p) = v := by
  cases f <;> rfl

theorem getField_setField_ne (f g : PhaseFields) (v : Nat) (p : PhasePower)
    (h : g ≠ f) : getField f (setField g v p) = getField f p := by
  cases f <;> cases g <;> first | rfl | exact absurd rfl h

theorem phaseInner_none_iff (d : Device) (i : Nat)
    (L : List (PhaseFields × Nat)) (acc : PhasePower) :
    (phaseInner d i L acc).1 = none ↔
      ∀ q ∈ L, d.readOk (q.2 + i * 2) = true := by
  induction L generalizing acc with
  | nil => simp [phaseInner]
  | cons q rest ih =>
    obtain ⟨f0, r0⟩ := q
    cases h : d.readOk (r0 + i * 2) with
    | false =>
        simp only [phaseInner, read_modbus_int32_fail d _ h]
        constructor
        · intro hc; simp at hc
        · intro hall
          have := hall (f0, r0) (List.mem_cons_self _ _)
          simp [h] at this
    | true =>
        simp only [phaseInner, read_modbus_int32_ok d _ h]
        rw [ih]
        constructor
        · intro hall q hq
          rcases List.mem_cons.mp hq with rfl | hq2
          · exact h
          · exact hall q hq2
        · intro hall q hq
          exact hall q (List.mem_cons_of_mem _ hq)

theorem phaseInner_events_of_none (d : Device) (i : Nat)
    (L : List (PhaseFields × Nat)) (acc : PhasePower)
    (hs : (phaseInner d i L acc).1 = none) :
    (phaseInner d i L acc).2.2 = L.map fun q => Event.readAt (q.2 + i * 2) := by
  induction L generalizing acc with
  | nil => simp [phaseInner]
  | cons q rest ih =>
    obtain ⟨f0, r0⟩ := q
    cases h : d.readOk (r0 + i * 2) with
    | false => simp [phaseInner, read_modbus_int32_fail d _ h] at hs
    | true =>
        simp only [phaseInner, read_modbus_int32_ok d _ h] at hs ⊢
        simpa using ih (setField f0 (decodeVal d (r0 + i * 2)) acc) hs

theorem phaseInner_getField_preserve (d : Device) (i : Nat)
    (L : List (PhaseFields × Nat)) (acc : PhasePower) (f : PhaseFields)
    (h : ∀ q ∈ L, q.1 ≠ f) :
    getField f (phaseInner d i L acc).2.1 = getField f acc := by
  induction L generalizing acc with
  | nil => simp [phaseInner]
  | cons q rest ih =>
    obtain ⟨f0, r0⟩ := q
    cases hr : d.readOk (r0 + i * 2) with
    | false => simp [phaseInner, read_modbus_int32_fail d _ hr]
    | true =>
        simp only [phaseInner, read_modbus_int32_ok d _ hr]
        have hne : f0 ≠ f := h (f0, r0) (List.mem_cons_self _ _)
        rw [ih _ fun q hq => h q (List.mem_cons_of_mem _ hq)]
        exact getField_setField_ne f f0 _ acc hne

theorem phaseInner_getField_mem (d : Device) (i : Nat)
    (L : List (PhaseFields × Nat)) (acc : PhasePower) (f : PhaseFields)
    (b : Nat) (hnd : (L.map Prod.fst).Nodup)
    (hs : (phaseInner d i L acc).1 = none) (hmem : (f, b) ∈ L) :
    getField f (phaseInner d i L acc).2.1 = decodeVal d (b + i * 2) := by
  induction L generalizing acc with
  | nil => simp at hmem
  | cons q rest ih =>
    obtain ⟨f0, r0⟩ := q
    cases hr : d.readOk (r0 + i * 2) with
    | false => simp [phaseInner, read_modbus_int32_fail d _ hr] at hs
    | true =>
        simp only [phaseInner, read_modbus_int32_ok d _ hr] at hs ⊢
        have hnd2 : f0 ∉ rest.map Prod.fst ∧ (rest.map Prod.fst).Nodup := by
          rw [List.map_cons, List.nodup_cons] at hnd
          exact hnd
        rcases List.mem_cons.mp hmem with heq | hmemrest
        · injection heq with h1 h2
          subst h1; subst h2
          have hnot : ∀ q ∈ rest, q.1 ≠ f := by
            intro q hq hqn
            exact hnd2.1 (hqn ▸ List.mem_map_of_mem Prod.fst hq)
          rw [phaseInner_getField_preserve d i rest _ f hnot]
          exact getField_setField_same f _ acc
        · exact ih _ hnd2.2 hs hmemrest

theorem phaseOuter_none_iff (d : Device) (order : List (PhaseFields × Nat))
    (is : List Nat) (acc : List PhasePower) :
    (phaseOuter d order is acc).1 = none ↔
      ∀ i ∈ is, (phaseInner d i order ⟨0, 0, 0⟩).1 = none := by
  induction is generalizing acc with
  | nil => simp [phaseOuter]
  | cons i rest ih =>
    cases hr : (phaseInner d i order ⟨0, 0, 0⟩).1 with
    | some e =>
        simp only [phaseOuter, hr]
        constructor
        · intro hc; simp at hc
        · intro hall
          have := hall i (List.mem_cons_self _ _)
          simp [hr] at this
    | none =>
        simp only [phaseOuter, hr]
        rw [ih]
        constructor
        · intro hall j hj
          rcases List.mem_cons.mp hj with rfl | hj2
          · exact hr
          · exact hall j hj2
        · intro hall j hj
          exact hall j (List.mem_cons_of_mem _ hj)

theorem phaseOuter_acc_of_none (d : Device) (order : List (PhaseFields × Nat))
    (is : List Nat) (acc : List PhasePower)
    (hs : (phaseOuter d order is acc).1 = none) :
    (phaseOuter d order is acc).2.1 =
      acc ++ is.map fun i => (phaseInner d i order ⟨0, 0, 0⟩).2.1 := by
  induction is generalizing acc with
  | nil => simp [phaseOuter]
  | cons i rest ih =>
    cases hr : (phaseInner d i order ⟨0, 0, 0⟩).1 with
    | some e => simp [phaseOuter, hr] at hs
    | none =>
        simp only [phaseOuter, hr] at hs ⊢
        rw [ih _ hs]
        simp

theorem phaseOuter_events_of_none (d : Device)
    (order : List (PhaseFields × Nat)) (is : List Nat)
    (acc : List PhasePower) (hs : (phaseOuter d order is acc).1 = none) :
    (phaseOuter d order is acc).2.2 =
      (is.map fun i => (phaseInner d i order ⟨0, 0, 0⟩).2.2).flatten := by
  induction is generalizing acc with
  | nil => simp [phaseOuter]
  | cons i rest ih =>
    cases hr : (phaseInner d i order ⟨0, 0, 0⟩).1 with
    | some e => simp [phaseOuter, hr] at hs
    | none =>
        simp only [phaseOuter, hr] at hs ⊢
        rw [ih _ hs]
        simp

/-! ### Shapes of traces: every event a loop emits is a read, and a
failing loop's trace ends at the failing read -/

theorem baseLoop_events_readAt (d : Device) (L : List (String × Nat))
    (m : List (String × Nat)) :
    ∀ e ∈ (baseLoop d L m).2.2, ∃ a, e = Event.readAt a := by
  induction L generalizing m with
  | nil => simp [baseLoop]
  | cons q rest ih =>
    obtain ⟨n0, r0⟩ := q
    cases hr : d.readOk r0 with
    | false =>
        simp [baseLoop, read_modbus_int32_fail d r0 hr]
    | true =>
        simp only [baseLoop, read_modbus_int32_ok d r0 hr]
        intro e he
        rcases List.mem_cons.mp he with rfl | he2
        · exact ⟨r0, rfl⟩
        · exact ih _ e he2

theorem phaseInner_events_readAt (d : Device) (i : Nat)
    (L : List (PhaseFields × Nat)) (acc : PhasePower) :
    ∀ e ∈ (phaseInner d i L acc).2.2, ∃ a, e = Event.readAt a := by
  induction L generalizing acc with
  | nil => simp [phaseInner]
  | cons q rest ih =>
    obtain ⟨f0, r0⟩ := q
    cases hr : d.readOk (r0 + i * 2) with
    | false =>
        simp [phaseInner, read_modbus_int32_fail d _ hr]
    | true =>
        simp only [phaseInner, read_modbus_int32_ok d _ hr]
        intro e he
        rcases List.mem_cons.mp he with rfl | he2
        · exact ⟨r0 + i * 2, rfl⟩
        · exact ih _ e he2

theorem phaseOuter_events_readAt (d : Device)
    (order : List (PhaseFields × Nat)) (is : List Nat)
    (acc : List PhasePower) :
    ∀ e ∈ (phaseOuter d order is acc).2.2, ∃ a, e = Event.readAt a := by
  induction is generalizing acc with
  | nil => simp [phaseOuter]
  | cons i rest ih =>
    cases hr : (phaseInner d i order ⟨0, 0, 0⟩).1 with
    | some e0 =>
        simp only [phaseOuter, hr]
        exact phaseInner_events_readAt d i order ⟨0, 0, 0⟩
    | none =>
        simp only [phaseOuter, hr]
        intro e he
        rcases List.mem_append.mp he with he2 | he2
        · exact phaseInner_events_readAt d i order ⟨0, 0, 0⟩ e he2
        · exact ih _ e he2

theorem baseLoop_fail_last (d : Device) (L : List (String × Nat))
    (m : List (String × Nat)) (e : MinerError)
    (hs : (baseLoop d L m).1 = some e) :
    ∃ a, d.readOk a = false ∧
      (baseLoop d L m).2.2.getLast? = some (Event.readAt a) := by
  induction L generalizing m with
  | nil => simp [baseLoop] at hs
  | cons q rest ih =>
    obtain ⟨n0, r0⟩ := q
    cases hr : d.readOk r0 with
    | false =>
        refine ⟨r0, hr, ?_⟩
        simp [baseLoop, read_modbus_int32_fail d r0 hr]
    | true =>
        simp only [baseLoop, read_modbus_int32_ok d r0 hr] at hs ⊢
        obtain ⟨a, ha, hlast⟩ := ih ((n0, decodeVal d r0) :: m) hs
        refine ⟨a, ha, ?_⟩
        cases hevs : (baseLoop d rest ((n0, decodeVal d r0) :: m)).2.2 with
        | nil => rw [hevs] at hlast; simp at hlast
        | cons x xs =>
            rw [hevs] at hlast
            rw [List.getLast?_cons_cons]
            exact hlast

theorem phaseInner_fail_last (d : Device) (i : Nat)
    (L : List (PhaseFields × Nat)) (acc : PhasePower) (e : MinerError)
    (hs : (phaseInner d i L acc).1 = some e) :
    ∃ a, d.readOk a = false ∧
      (phaseInner d i L acc).2.2.getLast? = some (Event.readAt a) := by
  induction L generalizing acc with
  | nil => simp [phaseInner] at hs
  | cons q rest ih =>
    obtain ⟨f0, r0⟩ := q
    cases hr : d.readOk (r0 + i * 2) with
    | false =>
        refine ⟨r0 + i * 2, hr, ?_⟩
        simp [phaseInner, read_modbus_int32_fail d _ hr]
    | true =>
        simp only [phaseInner, read_modbus_int32_ok d _ hr] at hs ⊢
        obtain ⟨a, ha, hlast⟩ := ih (setField f0 (decodeVal d (r0 + i * 2)) acc) hs
        refine ⟨a, ha, ?_⟩
        cases hevs : (phaseInner d i rest
            (setField f0 (decodeVal d (r0 + i * 2)) acc)).2.2 with
        | nil => rw [hevs] at hlast; simp at hlast
        | cons x xs =>
            rw [hevs] at hlast
            rw [List.getLast?_cons_cons]
            exact hlast

theorem phaseOuter_fail_last (d : Device)
    (order : List (PhaseFields × Nat)) (is : List Nat)
    (acc : List PhasePower) (e : MinerError)
    (hs : (phaseOuter d order is acc).1 = some e) :
    ∃ a, d.readOk a = false ∧
      (phaseOuter d order is acc).2.2.getLast? = some (Event.readAt a) := by
  induction is generalizing acc with
  | nil => simp [phaseOuter] at hs
  | cons i rest ih =>
    cases hr : (phaseInner d i order ⟨0, 0, 0⟩).1 with
    | some e0 =>
        simp only [phaseOuter, hr]
        exact phaseInner_fail_last d i order ⟨0, 0, 0⟩ e0 hr
    | none =>
        simp only [phaseOuter, hr] at hs ⊢
        obtain ⟨a, ha, hlast⟩ := ih (acc ++ [(phaseInner d i order ⟨0, 0, 0⟩).2.1]) hs
        refine ⟨a, ha, ?_⟩
        rw [List.getLast?_append, hlast]
        rfl

/-! ### Full-success characterisation of the poll -/

theorem assemble_ne_err (m : List (String × Nat)) (phases : List PhasePower)
    (e : MinerError) : assemble m phases ≠ PollResult.err e := by
  intro h
  unfold assemble at h
  split at h <;> simp at h

theorem phaseInner_val (d : Device) (i : Nat)
    (p : List (PhaseFields × Nat)) (hp : p.Perm phase_data_registers)
    (hs : (phaseInner d i p ⟨0, 0, 0⟩).1 = none) :
    (phaseInner d i p ⟨0, 0, 0⟩).2.1 =
      ⟨decodeVal d (0x12 + i * 2), decodeVal d (0x1e + i * 2),
       decodeVal d (0x18 + i * 2)⟩ := by
  have hnd : (p.map Prod.fst).Nodup :=
    (hp.map Prod.fst).nodup_iff.mpr (by decide)
  have h1 := phaseInner_getField_mem d i p ⟨0, 0, 0⟩ PhaseFields.Power 0x12
    hnd hs (hp.mem_iff.mpr (by simp [phase_data_registers]))
  have h2 := phaseInner_getField_mem d i p ⟨0, 0, 0⟩ PhaseFields.ReactivePower
    0x1e hnd hs (hp.mem_iff.mpr (by simp [phase_data_registers]))
  have h3 := phaseInner_getField_mem d i p ⟨0, 0, 0⟩ PhaseFields.ApparentPower
    0x18 hnd hs (hp.mem_iff.mpr (by simp [phase_data_registers]))
  cases hres : (phaseInner d i p ⟨0, 0, 0⟩).2.1 with
  | mk pw rp ap =>
      rw [hres] at h1 h2 h3
      simp only [getField] at h1 h2 h3
      rw [h1, h2, h3]

theorem assemble_canonical (d : Device) (b : List (String × Nat))
    (p : List (PhaseFields × Nat)) (hb : b.Perm BASE_DATA_REGISTER)
    (hp : p.Perm phase_data_registers)
    (hsb : (baseLoop d b []).1 = none)
    (hsp : (phaseOuter d p [0, 1, 2] []).1 = none) :
    assemble (baseLoop d b []).2.1 (phaseOuter d p [0, 1, 2] []).2.1 =
      PollResult.ok (snap d) := by
  have hnd : (b.map Prod.fst).Nodup :=
    (hb.map Prod.fst).nodup_iff.mpr (by decide)
  have l1 := baseLoop_lookup_mem d b [] "imported_power_total" 0x34 hnd hsb
    (hb.mem_iff.mpr (by simp [BASE_DATA_REGISTER]))
  have l2 := baseLoop_lookup_mem d b [] "imported_reactive_power_total" 0x36
    hnd hsb (hb.mem_iff.mpr (by simp [BASE_DATA_REGISTER]))
  have l3 := baseLoop_lookup_mem d b [] "exported_power_total" 0x4e hnd hsb
    (hb.mem_iff.mpr (by simp [BASE_DATA_REGISTER]))
  have l4 := baseLoop_lookup_mem d b [] "exported_reactive_power_total" 0x50
    hnd hsb (hb.mem_iff.mpr (by simp [BASE_DATA_REGISTER]))
  have hin := (phaseOuter_none_iff d p [0, 1, 2] []).mp hsp
  have hacc := phaseOuter_acc_of_none d p [0, 1, 2] [] hsp
  have v0 := phaseInner_val d 0 p hp (hin 0 (by simp))
  have v1 := phaseInner_val d 1 p hp (hin 1 (by simp))
  have v2 := phaseInner_val d 2 p hp (hin 2 (by simp))
  rw [assemble, l1, l2, l3, l4, hacc]
  simp only [List.map, List.nil_append, v0, v1, v2]
  norm_num [snap]

/-! ### The five control-flow paths of `poll_solar_data` -/

theorem poll_eq_open_fail (d : Device) (b : List (String × Nat))
    (p : List (PhaseFields × Nat)) (ho : d.openOk = false) :
    poll_solar_data d b p =
      (PollResult.err (MinerError.ModbusTransportIssue d.openMsg), []) := by
  simp [poll_solar_data, ho]

theorem poll_eq_base_fail (d : Device) (b : List (String × Nat))
    (p : List (PhaseFields × Nat)) (e : MinerError) (ho : d.openOk = true)
    (hsb : (baseLoop d b []).1 = some e) :
    poll_solar_data d b p =
      (PollResult.err e, Event.opened :: (baseLoop d b []).2.2) := by
  simp [poll_solar_data, ho, hsb]

theorem poll_eq_phase_fail (d : Device) (b : List (String × Nat))
    (p : List (PhaseFields × Nat)) (e : MinerError) (ho : d.openOk = true)
    (hsb : (baseLoop d b []).1 = none)
    (hsp : (phaseOuter d p [0, 1, 2] []).1 = some e) :
    poll_solar_data d b p =
      (PollResult.err e,
       Event.opened ::
         ((baseLoop d b []).2.2 ++ (phaseOuter d p [0, 1, 2] []).2.2)) := by
  simp [poll_solar_data, ho, hsb, hsp]

theorem poll_eq_close_fail (d : Device) (b : List (String × Nat))
    (p : List (PhaseFields × Nat)) (ho : d.openOk = true)
    (hsb : (baseLoop d b []).1 = none)
    (hsp : (phaseOuter d p [0, 1, 2] []).1 = none)
    (hc : d.closeOk = false) :
    poll_solar_data d b p =
      (PollResult.err (MinerError.ModbusTransportIssue d.closeMsg),
       Event.opened ::
         ((baseLoop d b []).2.2 ++ (phaseOuter d p [0, 1, 2] []).2.2 ++
          [Event.closed])) := by
  simp [poll_solar_data, ho, hsb, hsp, hc]

theorem poll_eq_success (d : Device) (b : List (String × Nat))
    (p : List (PhaseFields × Nat)) (ho : d.openOk = true)
    (hsb : (baseLoop d b []).1 = none)
    (hsp : (phaseOuter d p [0, 1, 2] []).1 = none)
    (hc : d.closeOk = true) :
    poll_solar_data d b p =
      (assemble (baseLoop d b []).2.1 (phaseOuter d p [0, 1, 2] []).2.1,
       Event.opened ::
         ((baseLoop d b []).2.2 ++ (phaseOuter d p [0, 1, 2] []).2.2 ++
          [Event.closed])) := by
  simp [poll_solar_data, ho, hsb, hsp, hc]

/-! ### Loop success from a fully readable device -/

theorem baseLoop_none_of_perm (d : Device) (b : List (String × Nat))
    (hb : b.Perm BASE_DATA_REGISTER)
    (hr : ∀ a ∈ DOC_ADDRS, d.readOk a = true) :
    (baseLoop d b []).1 = none := by
  rw [baseLoop_none_iff]
  intro q hq
  have hq2 := hb.subset hq
  simp only [BASE_DATA_REGISTER, List.mem_cons, List.not_mem_nil,
    or_false] at hq2
  rcases hq2 with h | h | h | h <;> subst h <;> exact hr _ (by decide)

theorem phaseOuter_none_of_perm (d : Device) (p : List (PhaseFields × Nat))
    (hp : p.Perm phase_data_registers)
    (hr : ∀ a ∈ DOC_ADDRS, d.readOk a = true) :
    (phaseOuter d p [0, 1, 2] []).1 = none := by
  rw [phaseOuter_none_iff]
  intro i hi
  rw [phaseInner_none_iff]
  intro q hq
  have hq2 := hp.subset hq
  simp only [phase_data_registers, List.mem_cons, List.not_mem_nil,
    or_false] at hq2
  simp only [List.mem_cons, List.not_mem_nil, or_false] at hi
  rcases hi with rfl | rfl | rfl <;> rcases hq2 with h | h | h <;> subst h <;>
    exact hr _ (by decide)

theorem poll_ok_canonical (d : Device) (b : List (String × Nat))
    (p : List (PhaseFields × Nat)) (s : MinerData)
    (hb : b.Perm BASE_DATA_REGISTER) (hp : p.Perm phase_data_registers)
    (h : (poll_solar_data d b p).1 = PollResult.ok s) : s = snap d := by
  cases ho : d.openOk with
  | false => rw [poll_eq_open_fail d b p ho] at h; simp at h
  | true =>
    cases hsb : (baseLoop d b []).1 with
    | some e => rw [poll_eq_base_fail d b p e ho hsb] at h; simp at h
    | none =>
      cases hsp : (phaseOuter d p [0, 1, 2] []).1 with
      | some e => rw [poll_eq_phase_fail d b p e ho hsb hsp] at h; simp at h
      | none =>
        cases hc : d.closeOk with
        | false => rw [poll_eq_close_fail d b p ho hsb hsp hc] at h; simp at h
        | true =>
            rw [poll_eq_success d b p ho hsb hsp hc] at h
            rw [assemble_canonical d b p hb hp hsb hsp] at h
            exact (PollResult.ok.injEq .. ▸ h).symm

theorem getLast?_cons_of_ne_nil {α : Type} (x : α) (l : List α)
    (h : l ≠ []) : (x :: l).getLast? = l.getLast? := by
  cases l with
  | nil => exact absurd rfl h
  | cons y ys => exact List.getLast?_cons_cons

theorem readAddrs_opened (l : List Event) :
    readAddrs (Event.opened :: l) = readAddrs l := by
  simp [readAddrs]

theorem readAddrs_append (l1 l2 : List Event) :
    readAddrs (l1 ++ l2) = readAddrs l1 ++ readAddrs l2 := by
  simp [readAddrs]

theorem readAddrs_closed_single : readAddrs [Event.closed] = [] := rfl

theorem readAddrs_map_readAt {α : Type} (g : α → Nat) (l : List α) :
    readAddrs (l.map fun q => Event.readAt (g q)) = l.map g := by
  induction l with
  | nil => rfl
  | cons x xs ih =>
      simp only [List.map, readAddrs, List.filterMap_cons] at ih ⊢
      rw [ih]

/-! ### Example devices for concrete executions -/

/-- Registers hold `reg[0x34] = 0x0001`, `reg[0x35] = 0x0000`, zero
elsewhere; every operation succeeds. -/
def exC1 : Device := okDevice fun a => if a = 0x34 then 1 else 0

/-- Only the read issued at address 0x16 (phase index 2, power) fails. -/
def exC2 : Device :=
  { okDevice (fun _ => 0) with
    readOk := (fun a => a != 0x16),
    readMsg := (fun _ => "timeout") }

/-- All 13 reads succeed, but closing the transport fails. -/
def exC3 : Device :=
  { okDevice (fun _ => 7) with closeOk := false, closeMsg := "boom" }

/-- Only the read issued at address 0x36 fails. -/
def exC4 : Device :=
  { okDevice (fun _ => 0) with
    readOk := (fun a => a != 0x36),
    readMsg := (fun _ => "t") }

/-- Opening the transport fails. -/
def exC5 : Device :=
  { okDevice (fun _ => 0) with openOk := false, openMsg := "refused" }

/-! ### Claim C1 -/

/-- Claim C1, counterexample: with `reg[0x34] = 0x0001` and
`reg[0x35] = 0x0000` the decoder returns 1, not the 65536 the claim's
formula `(reg[A] << 16) | reg[A+1]` demands — the word at the lower
address is the LOW word, because `read_modbus_int32` reverses the array
before combining. -/
theorem C1_counterexample :
    read_modbus_int32 exC1 0x34 = Except.ok 1 ∧
    (poll_solar_data exC1 BASE_DATA_REGISTER phase_data_registers).1 =
      PollResult.ok
        { imported_power_total := 1, imported_reactive_power_total := 0,
          exported_power_total := 0, exported_reactive_power_total := 0,
          phase1 := ⟨0, 0, 0⟩, phase2 := ⟨0, 0, 0⟩, phase3 := ⟨0, 0, 0⟩ } ∧
    (1 : Nat) ≠ 65536 := by
  refine ⟨rfl, by decide, by decide⟩

/-- Claim C1 (amended): for every pair of registers read at `A` and
`A+1`, the decoder returns `(reg[A+1] << 16) | reg[A]` — that is,
`reg[A+1] * 65536 + reg[A]` exactly, as an unsigned value with no sign
extension (the word at the HIGHER address is the high word). -/
theorem C1_theorem (d : Device) (a : Nat) (h : d.readOk a = true) :
    read_modbus_int32 d a =
      Except.ok ((d.regs (a + 1) % 65536) * 65536 + d.regs a % 65536) := by
  rw [read_modbus_int32_ok d a h, decodeVal_eq]

/-- Witness for C1: at the boundary `hi = lo = 0xFFFF` the decoder
yields `0xFFFFFFFF`. -/
theorem C1_witness :
    read_modbus_int32 (okDevice fun _ => 0xFFFF) 0x34 =
      Except.ok 0xFFFFFFFF := by
  rw [C1_theorem (okDevice fun _ => 0xFFFF) 0x34 rfl]
  norm_num [okDevice]

/-! ### Claim C2 -/

/-- Claim C2, divergence witness: on a device where only the read issued
at `0x16` (phase index 2, power sub-measurement, base `0x12`) fails,
`poll_solar_data` does return a failure and not a snapshot, but the
`BadDataRead` error carries register `0x12` — the BASE address — while
the trace shows the failing read was issued at `0x16 = 0x12 + 2*2`.
This contradicts the claim (and the error's own message template), which
require the exact offset address `base + 2*i`. -/
theorem C2_code_divergence :
    (poll_solar_data exC2 BASE_DATA_REGISTER phase_data_registers).1 =
      PollResult.err (MinerError.BadDataRead 0x12 "timeout") ∧
    (poll_solar_data exC2 BASE_DATA_REGISTER phase_data_registers).2.getLast?
      = some (Event.readAt 0x16) ∧
    (0x12 : Nat) ≠ 0x16 := by
  refine ⟨by decide, by decide, by decide⟩

/-! ### Claim C3 -/

/-- Claim C3, counterexample: on a device where all 13 reads succeed but
the close fails, `poll_solar_data` does NOT return the assembled
snapshot; it propagates the close error (`?` on line 133 of the source)
as a `ModbusTransportIssue` failure. -/
theorem C3_counterexample :
    exC3.closeOk = false ∧
    (poll_solar_data exC3 BASE_DATA_REGISTER phase_data_registers).1 =
      PollResult.err (MinerError.ModbusTransportIssue "boom") := by
  refine ⟨rfl, by decide⟩

/-- Claim C3 (amended): when all 13 reads succeed but the close fails,
`poll_solar_data` returns a `ModbusTransportIssue` failure carrying the
close error — the close error IS propagated and the snapshot discarded. -/
theorem C3_theorem (d : Device) (b : List (String × Nat))
    (p : List (PhaseFields × Nat)) (hb : b.Perm BASE_DATA_REGISTER)
    (hp : p.Perm phase_data_registers) (ho : d.openOk = true)
    (hr : ∀ a ∈ DOC_ADDRS, d.readOk a = true) (hc : d.closeOk = false) :
    (poll_solar_data d b p).1 =
      PollResult.err (MinerError.ModbusTransportIssue d.closeMsg) := by
  rw [poll_eq_close_fail d b p ho (baseLoop_none_of_perm d b hb hr)
    (phaseOuter_none_of_perm d p hp hr) hc]

/-- Witness for C3 at the concrete device `exC3`. -/
theorem C3_witness :
    (poll_solar_data exC3 BASE_DATA_REGISTER phase_data_registers).1 =
      PollResult.err (MinerError.ModbusTransportIssue "boom") :=
  C3_theorem exC3 BASE_DATA_REGISTER phase_data_registers
    (List.Perm.refl _) (List.Perm.refl _) rfl (fun _ _ => rfl) rfl

/-! ### Claim C4 -/

/-- Claim C4, counterexample: when the read at `0x36` fails the poll
returns the failure, but it does NOT explicitly close the transport
first — the trace contains no close event (the `?` operator returns
immediately and the transport is merely dropped). -/
theorem C4_counterexample :
    (poll_solar_data exC4 BASE_DATA_REGISTER phase_data_registers).1 =
      PollResult.err (MinerError.BadDataRead 0x36 "t") ∧
    Event.closed ∉
      (poll_solar_data exC4 BASE_DATA_REGISTER phase_data_registers).2 := by
  refine ⟨by decide, by decide⟩

/-- Claim C4 (amended): whenever `poll_solar_data` returns a
`BadDataRead` failure, it issues no further register reads after the
failing one (the trace ends at a read whose `readOk` is false) and never
closes the transport (no close event appears in the trace). -/
theorem C4_theorem (d : Device) (b : List (String × Nat))
    (p : List (PhaseFields × Nat)) (r : Nat) (msg : String)
    (h : (poll_solar_data d b p).1 =
      PollResult.err (MinerError.BadDataRead r msg)) :
    Event.closed ∉ (poll_solar_data d b p).2 ∧
    ∃ a, d.readOk a = false ∧
      (poll_solar_data d b p).2.getLast? = some (Event.readAt a) := by
  cases ho : d.openOk with
  | false => rw [poll_eq_open_fail d b p ho] at h; simp at h
  | true =>
    cases hsb : (baseLoop d b []).1 with
    | some e =>
        have hpe := poll_eq_base_fail d b p e ho hsb
        obtain ⟨a, ha, hlast⟩ := baseLoop_fail_last d b [] e hsb
        have hne : (baseLoop d b []).2.2 ≠ [] := by
          intro hnil; rw [hnil] at hlast; simp at hlast
        constructor
        · rw [hpe]
          intro hmem
          rcases List.mem_cons.mp hmem with h1 | h1
          · simp at h1
          · obtain ⟨a2, ha2⟩ := baseLoop_events_readAt d b [] _ h1
            simp at ha2
        · refine ⟨a, ha, ?_⟩
          rw [hpe]
          show (Event.opened :: (baseLoop d b []).2.2).getLast? = _
          rw [getLast?_cons_of_ne_nil _ _ hne]
          exact hlast
    | none =>
      cases hsp : (phaseOuter d p [0, 1, 2] []).1 with
      | some e =>
          have hpe := poll_eq_phase_fail d b p e ho hsb hsp
          obtain ⟨a, ha, hlast⟩ := phaseOuter_fail_last d p [0, 1, 2] [] e hsp
          have hne2 : (phaseOuter d p [0, 1, 2] []).2.2 ≠ [] := by
            intro hnil; rw [hnil] at hlast; simp at hlast
          constructor
          · rw [hpe]
            intro hmem
            rcases List.mem_cons.mp hmem with h1 | h1
            · simp at h1
            · rcases List.mem_append.mp h1 with h2 | h2
              · obtain ⟨a2, ha2⟩ := baseLoop_events_readAt d b [] _ h2
                simp at ha2
              · obtain ⟨a2, ha2⟩ :=
                  phaseOuter_events_readAt d p [0, 1, 2] [] _ h2
                simp at ha2
          · refine ⟨a, ha, ?_⟩
            rw [hpe]
            show (Event.opened ::
              ((baseLoop d b []).2.2 ++ (phaseOuter d p [0, 1, 2] []).2.2)
              ).getLast? = _
            rw [getLast?_cons_of_ne_nil _ _ (by simp [hne2]),
              List.getLast?_append, hlast]
            rfl
      | none =>
        cases hc : d.closeOk with
        | false => rw [poll_eq_close_fail d b p ho hsb hsp hc] at h; simp at h
        | true =>
            rw [poll_eq_success d b p ho hsb hsp hc] at h
            exact absurd h (assemble_ne_err _ _ _)

/-- Witness for C4 at the concrete device `exC4`. -/
theorem C4_witness :
    Event.closed ∉
      (poll_solar_data exC4 BASE_DATA_REGISTER phase_data_registers).2 ∧
    ∃ a, exC4.readOk a = false ∧
      (poll_solar_data exC4 BASE_DATA_REGISTER phase_data_registers).2.getLast?
        = some (Event.readAt a) :=
  C4_theorem exC4 BASE_DATA_REGISTER phase_data_registers 0x36 "t" (by decide)

/-! ### Claim C5 -/

/-- Claim C5: if opening the transport fails, the poll returns the
`ModbusTransportIssue` (transport-unavailable) error and the trace is
empty — in particular no register read is issued. -/
theorem C5_theorem (d : Device) (b : List (String × Nat))
    (p : List (PhaseFields × Nat)) (ho : d.openOk = false) :
    (poll_solar_data d b p).1 =
      PollResult.err (MinerError.ModbusTransportIssue d.openMsg) ∧
    readAddrs (poll_solar_data d b p).2 = [] := by
  rw [poll_eq_open_fail d b p ho]
  exact ⟨rfl, rfl⟩

/-- Witness for C5 at the concrete device `exC5`. -/
theorem C5_witness :
    (poll_solar_data exC5 BASE_DATA_REGISTER phase_data_registers).1 =
      PollResult.err (MinerError.ModbusTransportIssue "refused") ∧
    readAddrs
      (poll_solar_data exC5 BASE_DATA_REGISTER phase_data_registers).2 = [] :=
  C5_theorem exC5 BASE_DATA_REGISTER phase_data_registers rfl

/-! ### Claim C6 -/

/-- Claim C6: for every phase index `i < 3` and each entry `(f, b)` of
the phase register table (power `0x12`, apparent power `0x18`, reactive
power `0x1e`), the phase read is issued at exactly `b + 2*i`: the inner
loop for phase `i` reads `0x12 + 2i`, `0x18 + 2i`, `0x1e + 2i` in table
order, and each of those read events occurs in the full poll trace. -/
theorem C6_theorem (d : Device) (i : Nat) (hi : i < 3)
    (ho : d.openOk = true) (hr : ∀ a ∈ DOC_ADDRS, d.readOk a = true) :
    (phaseInner d i phase_data_registers ⟨0, 0, 0⟩).2.2 =
      [Event.readAt (0x12 + 2 * i), Event.readAt (0x18 + 2 * i),
       Event.readAt (0x1e + 2 * i)] ∧
    ∀ f b, (f, b) ∈ phase_data_registers →
      Event.readAt (b + 2 * i) ∈
        (poll_solar_data d BASE_DATA_REGISTER phase_data_registers).2 := by
  have hsb := baseLoop_none_of_perm d _ (List.Perm.refl _) hr
  have hsp := phaseOuter_none_of_perm d _ (List.Perm.refl _) hr
  have hin := (phaseOuter_none_iff d phase_data_registers [0, 1, 2] []).mp hsp
  have hiin : (phaseInner d i phase_data_registers ⟨0, 0, 0⟩).1 = none := by
    interval_cases i
    · exact hin 0 (by simp)
    · exact hin 1 (by simp)
    · exact hin 2 (by simp)
  have hevs := phaseInner_events_of_none d i phase_data_registers ⟨0, 0, 0⟩ hiin
  constructor
  · rw [hevs]
    simp [phase_data_registers, Nat.mul_comm]
  · intro f b hmem
    have hpevs := phaseOuter_events_of_none d phase_data_registers [0, 1, 2] [] hsp
    have hiMem : i ∈ [0, 1, 2] := by interval_cases i <;> simp
    have h1 : Event.readAt (b + 2 * i) ∈
        (phaseInner d i phase_data_registers ⟨0, 0, 0⟩).2.2 := by
      rw [hevs, Nat.mul_comm 2 i]
      exact List.mem_map_of_mem _ hmem
    have h2 : Event.readAt (b + 2 * i) ∈
        (phaseOuter d phase_data_registers [0, 1, 2] []).2.2 := by
      rw [hpevs]
      exact List.mem_flatten.mpr ⟨_, List.mem_map_of_mem _ hiMem, h1⟩
    cases hc : d.closeOk with
    | false =>
        rw [poll_eq_close_fail d _ _ ho hsb hsp hc]
        simp only [List.mem_cons, List.mem_append]
        tauto
    | true =>
        rw [poll_eq_success d _ _ ho hsb hsp hc]
        simp only [List.mem_cons, List.mem_append]
        tauto

/-- Witness for C6 at phase index 2 on a fully readable device. -/
theorem C6_witness :
    (phaseInner (okDevice fun _ => 0) 2 phase_data_registers ⟨0, 0, 0⟩).2.2 =
      [Event.readAt 0x16, Event.readAt 0x1c, Event.readAt 0x22] ∧
    ∀ f b, (f, b) ∈ phase_data_registers →
      Event.readAt (b + 2 * 2) ∈
        (poll_solar_data (okDevice fun _ => 0) BASE_DATA_REGISTER
          phase_data_registers).2 :=
  C6_theorem (okDevice fun _ => 0) 2 (by decide) rfl (fun _ _ => rfl)

/-! ### Claim C7 -/

/-- Claim C7: on a fully successful poll, every snapshot field is the
decoded value of its own documented register — aggregates from 0x34,
0x36, 0x4e, 0x50, and phase index `i` maps to `phase(i+1)` with power
from `0x12 + 2i`, reactive power from `0x1e + 2i`, apparent power from
`0x18 + 2i` — with no cross-assignment. -/
theorem C7_theorem (d : Device) (b : List (String × Nat))
    (p : List (PhaseFields × Nat)) (hb : b.Perm BASE_DATA_REGISTER)
    (hp : p.Perm phase_data_registers) (ho : d.openOk = true)
    (hr : ∀ a ∈ DOC_ADDRS, d.readOk a = true) (hc : d.closeOk = true) :
    (poll_solar_data d b p).1 =
      PollResult.ok
        { imported_power_total := decodeVal d 0x34,
          imported_reactive_power_total := decodeVal d 0x36,
          exported_power_total := decodeVal d 0x4e,
          exported_reactive_power_total := decodeVal d 0x50,
          phase1 := { power := decodeVal d 0x12,
                      reactive_power := decodeVal d 0x1e,
                      apparent_power := decodeVal d 0x18 },
          phase2 := { power := decodeVal d 0x14,
                      reactive_power := decodeVal d 0x20,
                      apparent_power := decodeVal d 0x1a },
          phase3 := { power := decodeVal d 0x16,
                      reactive_power := decodeVal d 0x22,
                      apparent_power := decodeVal d 0x1c } } := by
  have hsb := baseLoop_none_of_perm d b hb hr
  have hsp := phaseOuter_none_of_perm d p hp hr
  rw [poll_eq_success d b p ho hsb hsp hc,
    assemble_canonical d b p hb hp hsb hsp]
  rfl

/-- Witness for C7: all registers hold 1, so every decoded value is
`(1 << 16) | 1 = 65537`. -/
theorem C7_witness :
    (poll_solar_data (okDevice fun _ => 1) BASE_DATA_REGISTER
      phase_data_registers).1 =
      PollResult.ok
        ⟨65537, 65537, 65537, 65537, ⟨65537, 65537, 65537⟩,
         ⟨65537, 65537, 65537⟩, ⟨65537, 65537, 65537⟩⟩ := by
  rw [C7_theorem (okDevice fun _ => 1) BASE_DATA_REGISTER
    phase_data_registers (List.Perm.refl _) (List.Perm.refl _) rfl
    (fun _ _ => rfl) rfl]
  decide

/-! ### Claim C8 -/

/-- Claim C8: the poll result is a deterministic function of the
device's register contents — two executions with any iteration orders of
the two register tables that both return snapshots return the SAME
snapshot — and the poll issues only open, read, and close operations on
the transport (no write operation exists in the trace). -/
theorem C8_theorem (d : Device) (b1 b2 : List (String × Nat))
    (p1 p2 : List (PhaseFields × Nat)) (s1 s2 : MinerData)
    (hb1 : b1.Perm BASE_DATA_REGISTER) (hb2 : b2.Perm BASE_DATA_REGISTER)
    (hp1 : p1.Perm phase_data_registers) (hp2 : p2.Perm phase_data_registers)
    (h1 : (poll_solar_data d b1 p1).1 = PollResult.ok s1)
    (h2 : (poll_solar_data d b2 p2).1 = PollResult.ok s2) :
    s1 = s2 ∧
    ∀ e ∈ (poll_solar_data d b1 p1).2,
      e = Event.opened ∨ e = Event.closed ∨ ∃ a, e = Event.readAt a := by
  refine ⟨?_, ?_⟩
  · rw [poll_ok_canonical d b1 p1 s1 hb1 hp1 h1,
      poll_ok_canonical d b2 p2 s2 hb2 hp2 h2]
  · intro e _
    cases e with
    | opened => exact Or.inl rfl
    | closed => exact Or.inr (Or.inl rfl)
    | readAt a => exact Or.inr (Or.inr ⟨a, rfl⟩)

/-- Witness for C8: polling with the tables in source order and polling
with both tables reversed yield the same snapshot. -/
theorem C8_witness :
    (⟨131074, 131074, 131074, 131074, ⟨131074, 131074, 131074⟩,
      ⟨131074, 131074, 131074⟩, ⟨131074, 131074, 131074⟩⟩ : MinerData) =
      snap (okDevice fun _ => 2) ∧
    ∀ e ∈ (poll_solar_data (okDevice fun _ => 2) BASE_DATA_REGISTER
        phase_data_registers).2,
      e = Event.opened ∨ e = Event.closed ∨ ∃ a, e = Event.readAt a :=
  C8_theorem (okDevice fun _ => 2) BASE_DATA_REGISTER
    BASE_DATA_REGISTER.reverse phase_data_registers
    phase_data_registers.reverse _ _ (List.Perm.refl _)
    (List.reverse_perm _) (List.Perm.refl _) (List.reverse_perm _)
    (by decide) (by decide)

/-! ### Claim C9 -/

/-- Claim C9: a fully successful poll issues exactly the 13 documented
register reads — the addresses read are a permutation of the 13
documented addresses, which are pairwise distinct — and exactly one
transport open occurs during the poll. -/
theorem C9_theorem (d : Device) (b : List (String × Nat))
    (p : List (PhaseFields × Nat)) (hb : b.Perm BASE_DATA_REGISTER)
    (hp : p.Perm phase_data_registers) (ho : d.openOk = true)
    (hr : ∀ a ∈ DOC_ADDRS, d.readOk a = true) (hc : d.closeOk = true) :
    (readAddrs (poll_solar_data d b p).2).Perm DOC_ADDRS ∧
    DOC_ADDRS.Nodup ∧
    (poll_solar_data d b p).2.count Event.opened = 1 := by
  have hsb := baseLoop_none_of_perm d b hb hr
  have hsp := phaseOuter_none_of_perm d p hp hr
  have hbevs := baseLoop_events_of_none d b [] hsb
  have hpevs := phaseOuter_events_of_none d p [0, 1, 2] [] hsp
  refine ⟨?_, by decide, ?_⟩
  · have hin := (phaseOuter_none_iff d p [0, 1, 2] []).mp hsp
    have hi0 := phaseInner_events_of_none d 0 p ⟨0, 0, 0⟩ (hin 0 (by simp))
    have hi1 := phaseInner_events_of_none d 1 p ⟨0, 0, 0⟩ (hin 1 (by simp))
    have hi2 := phaseInner_events_of_none d 2 p ⟨0, 0, 0⟩ (hin 2 (by simp))
    rw [poll_eq_success d b p ho hsb hsp hc]
    show (readAddrs (Event.opened ::
      ((baseLoop d b []).2.2 ++ (phaseOuter d p [0, 1, 2] []).2.2 ++
        [Event.closed]))).Perm DOC_ADDRS
    rw [hbevs, hpevs]
    simp only [List.map, List.flatten_cons, List.flatten_nil,
      List.append_nil]
    rw [hi0, hi1, hi2, readAddrs_opened, readAddrs_append, readAddrs_append,
      readAddrs_closed_single, List.append_nil, readAddrs_append,
      readAddrs_append, readAddrs_map_readAt (fun q : String × Nat => q.2) b,
      readAddrs_map_readAt (fun q : PhaseFields × Nat => q.2 + 0 * 2) p,
      readAddrs_map_readAt (fun q : PhaseFields × Nat => q.2 + 1 * 2) p,
      readAddrs_map_readAt (fun q : PhaseFields × Nat => q.2 + 2 * 2) p]
    have e1 : (b.map fun q : String × Nat => q.2).Perm
        [0x34, 0x36, 0x4e, 0x50] := by
      have h := hb.map fun q : String × Nat => q.2
      simpa [BASE_DATA_REGISTER] using h
    have e2 : ∀ i : Nat, (p.map fun q : PhaseFields × Nat =>
        q.2 + i * 2).Perm [0x12 + i * 2, 0x18 + i * 2, 0x1e + i * 2] := by
      intro i
      have h := hp.map fun q : PhaseFields × Nat => q.2 + i * 2
      simpa [phase_data_registers] using h
    have etot := e1.append ((e2 0).append ((e2 1).append (e2 2)))
    exact List.Perm.trans etot (by decide)
  · rw [poll_eq_success d b p ho hsb hsp hc]
    rw [List.count_cons]
    have hzero : ((baseLoop d b []).2.2 ++
        (phaseOuter d p [0, 1, 2] []).2.2 ++
        [Event.closed]).count Event.opened = 0 := by
      rw [List.count_eq_zero]
      intro hmem
      rcases List.mem_append.mp hmem with hmem2 | hmem2
      · rcases List.mem_append.mp hmem2 with hmem3 | hmem3
        · obtain ⟨a, ha⟩ := baseLoop_events_readAt d b [] _ hmem3
          simp at ha
        · obtain ⟨a, ha⟩ := phaseOuter_events_readAt d p [0, 1, 2] [] _ hmem3
          simp at ha
      · simp at hmem2
    rw [hzero]
    rfl

/-- Witness for C9 on a fully readable device with source-order tables. -/
theorem C9_witness :
    (readAddrs (poll_solar_data (okDevice fun _ => 0) BASE_DATA_REGISTER
      phase_data_registers).2).Perm DOC_ADDRS ∧
    DOC_ADDRS.Nodup ∧
    (poll_solar_data (okDevice fun _ => 0) BASE_DATA_REGISTER
      phase_data_registers).2.count Event.opened = 1 :=
  C9_theorem (okDevice fun _ => 0) BASE_DATA_REGISTER phase_data_registers
    (List.Perm.refl _) (List.Perm.refl _) rfl (fun _ _ => rfl) rfl

/-! ### Claim C10 -/

/-- Claim C10: when all 13 reads and the close succeed, the snapshot
assembly cannot panic — every `unwrap`ped map lookup finds a value and
the three phase indexings are in bounds — so the poll returns a
snapshot (and in particular never the panic outcome). -/
theorem C10_theorem (d : Device) (b : List (String × Nat))
    (p : List (PhaseFields × Nat)) (hb : b.Perm BASE_DATA_REGISTER)
    (hp : p.Perm phase_data_registers) (ho : d.openOk = true)
    (hr : ∀ a ∈ DOC_ADDRS, d.readOk a = true) (hc : d.closeOk = true) :
    (poll_solar_data d b p).1 = PollResult.ok (snap d) ∧
    (poll_solar_data d b p).1 ≠ PollResult.panicked := by
  have hsb := baseLoop_none_of_perm d b hb hr
  have hsp := phaseOuter_none_of_perm d p hp hr
  have h : (poll_solar_data d b p).1 = PollResult.ok (snap d) := by
    rw [poll_eq_success d b p ho hsb hsp hc]
    exact assemble_canonical d b p hb hp hsb hsp
  refine ⟨h, ?_⟩
  rw [h]
  simp

/-- Witness for C10 on a fully readable device with reversed tables. -/
theorem C10_witness :
    (poll_solar_data (okDevice fun _ => 3) BASE_DATA_REGISTER.reverse
      phase_data_registers.reverse).1 =
      PollResult.ok (snap (okDevice fun _ => 3)) ∧
    (poll_solar_data (okDevice fun _ => 3) BASE_DATA_REGISTER.reverse
      phase_data_registers.reverse).1 ≠ PollResult.panicked :=
  C10_theorem (okDevice fun _ => 3) BASE_DATA_REGISTER.reverse
    phase_data_registers.reverse (List.reverse_perm _)
    (List.reverse_perm _) rfl (fun _ _ => rfl) rfl

end SunGoldMiner
